import Mathlib

/-!
# Verification of the `playlist_player` component

Shallow embedding of `homeassistant/components/playlist_player.py`:
a per-entity state machine that turns one "play this comma-separated list
of media ids" request into a sequence of single-item play commands.

Modelling conventions:
* Python's wall-clock reads (`time.time()`) are passed in explicitly as a
  rational `now` parameter; durations and positions are rationals.
* The mutable registry `hass.data[DATA_PLAYLIST_PLAYERS]` is an association
  list from entity id to `PlaylistPlayer`.
* Fired `media_player.play_media` service calls are recorded in a
  `dispatched` log (entity id stored in the call data, content id).
* Python exceptions (`RuntimeError`, `KeyError`) become `Except.error`;
  an exception aborts the handler, so no state after the raise is produced.
* Object mutation is by reference in Python: a `PlaylistPlayer` stored in
  the registry is aliased by the `self` being mutated.  The dispatcher-level
  handlers therefore write the mutated object back into the registry when
  (and only when) its entry still exists (`syncBack`), which reproduces the
  aliasing observationally.
-/

/-- Player state strings (`STATE_IDLE`, `STATE_PLAYING`, `STATE_PAUSED`,
`STATE_OFF`); `unknown s` stands for any other state string `s`. -/
inductive PState where
  | idle
  | playing
  | paused
  | off
  | unknown (s : String)
deriving DecidableEq, Repr

/-- An entity state record as delivered by the state-changed event: the
state string and the optional `media_duration` / `media_position`
attributes (absent attributes default to 0 at the use site, mirroring
`new_state.attributes.get(ATTR_..., 0)`). -/
structure NewState where
  state : PState
  duration : Option ℚ
  position : Option ℚ
deriving DecidableEq, Repr

/-- Data of a `play_media` service call: the `entity_id` list and the
`media_content_id` string (a comma-separated list of media ids). -/
structure ServiceCall where
  entity_id : List String
  media_content_id : String
deriving DecidableEq, Repr

/-- Python exceptions the embedded code can raise. -/
inductive PyErr where
  | runtimeError (msg : String)
  | keyError
deriving DecidableEq, Repr

/-- The per-entity state machine object.  `entity_id` is `none` after
`async_stop` sets `self.entity_id = None`.  `data_entity_id` and
`data_content_id` model the `ATTR_ENTITY_ID` / `ATTR_MEDIA_CONTENT_ID`
slots of the copied call data `self.data`.  In Python `data`, `media_ids`
and `state` do not exist until `async_play` assigns them; the constructor
defaults below are unobservable because `async_play` always runs first. -/
structure PlaylistPlayer where
  entity_id : Option String
  data_entity_id : Option String
  data_content_id : String
  media_ids : List String
  state : PState
  start_time : ℚ
  time_left : ℚ
  time_past : ℚ
deriving DecidableEq, Repr

/-- The relevant slice of `hass`: the `DATA_PLAYLIST_PLAYERS` registry and
the log of fire-and-forget `play_media` dispatches, in order. -/
structure HassState where
  registry : List (String × PlaylistPlayer)
  dispatched : List (Option String × String)
deriving DecidableEq, Repr

/-- Python `list_of_chars.split(',')` semantics on a character list:
splitting the empty list yields `[[]]`, and every comma starts a new
(possibly empty) chunk. -/
def splitCommaList : List Char → List (List Char)
  | [] => [[]]
  | c :: rest =>
    if c = ',' then [] :: splitCommaList rest
    else
      match splitCommaList rest with
      | r :: rs => (c :: r) :: rs
      | [] => [[c]]

/-- Python `s.split(',')` on a string, as used by
`call_data.get(ATTR_MEDIA_CONTENT_ID).split(',')`. -/
def splitComma (s : String) : List String :=
  (splitCommaList s.data).map fun l => String.mk l

/-- Registry lookup: `entity_id in hass.data[DATA_PLAYLIST_PLAYERS]` /
dictionary read. -/
def regLookup : List (String × PlaylistPlayer) → String → Option PlaylistPlayer
  | [], _ => none
  | (k, v) :: rest, e => if k = e then some v else regLookup rest e

/-- Registry deletion: `del hass.data[DATA_PLAYLIST_PLAYERS][e]` (keys are
unique in a Python dict; removing every binding of `e` keeps the model
invariant-free). -/
def regErase : List (String × PlaylistPlayer) → String → List (String × PlaylistPlayer)
  | [], _ => []
  | (k, v) :: rest, e => if k = e then regErase rest e else (k, v) :: regErase rest e

/-- Registry write: `hass.data[DATA_PLAYLIST_PLAYERS][e] = p`. -/
def regSet (r : List (String × PlaylistPlayer)) (e : String) (p : PlaylistPlayer) :
    List (String × PlaylistPlayer) :=
  (e, p) :: regErase r e

/-- `PlaylistPlayer.__init__`: stores the entity id and zeroes the three
timing fields.  The remaining fields are not assigned by `__init__` in the
source; their defaults here are placeholders overwritten by `async_play`. -/
def PlaylistPlayer.new (eid : String) : PlaylistPlayer where
  entity_id := some eid
  data_entity_id := none
  data_content_id := ""
  media_ids := []
  state := PState.idle
  start_time := 0
  time_left := 0
  time_past := 0

/-- `PlaylistPlayer.async_stop`: deletes this entity's registry entry
(`KeyError` if the key is absent, e.g. after a previous stop set
`self.entity_id = None`) and clears `self.entity_id`. -/
def PlaylistPlayer.async_stop (self : PlaylistPlayer) (h : HassState) :
    Except PyErr (PlaylistPlayer × HassState) :=
  match self.entity_id with
  | some eid =>
    match regLookup h.registry eid with
    | some _ =>
      Except.ok ({ self with entity_id := none },
                 { h with registry := regErase h.registry eid })
    | none => Except.error PyErr.keyError
  | none => Except.error PyErr.keyError

/-- `PlaylistPlayer.async_media_next_track`: if media ids remain, pop the
first, store it in the call data's content-id slot and fire the
`play_media` dispatch; otherwise stop. -/
def PlaylistPlayer.async_media_next_track (self : PlaylistPlayer) (h : HassState) :
    Except PyErr (PlaylistPlayer × HassState) :=
  match self.media_ids with
  | i :: rest =>
    Except.ok ({ self with media_ids := rest, data_content_id := i },
               { h with dispatched := h.dispatched ++ [(self.data_entity_id, i)] })
  | [] => self.async_stop h

/-- `PlaylistPlayer.async_play`: copy the call data, overwrite its entity
id with this player's, derive `media_ids` by splitting the content id on
commas, set the state to idle and advance to the first track. -/
def PlaylistPlayer.async_play (self : PlaylistPlayer) (call : ServiceCall) (h : HassState) :
    Except PyErr (PlaylistPlayer × HassState) :=
  let self :=
    { self with
      data_entity_id := self.entity_id
      data_content_id := call.media_content_id
      media_ids := splitComma call.media_content_id
      state := PState.idle }
  self.async_media_next_track h

/-- `PlaylistPlayer.async_state_changed`: the transition classification.
`now` is the value `time.time()` would return during this call. -/
def PlaylistPlayer.async_state_changed (self : PlaylistPlayer) (new_state : NewState)
    (now : ℚ) (h : HassState) : Except PyErr (PlaylistPlayer × HassState) :=
  match new_state.state with
  | PState.playing =>
    let duration := new_state.duration.getD 0
    let position := new_state.position.getD 0
    let new_time_left := duration - position
    let self :=
      if self.state = PState.idle ∨ new_time_left ≠ self.time_left then
        { self with start_time := now, time_left := new_time_left, time_past := 0 }
      else if self.state = PState.paused then
        { self with start_time := now }
      else
        self
    Except.ok ({ self with state := PState.playing }, h)
  | PState.paused =>
    let self :=
      if self.state = PState.playing then
        { self with time_past := self.time_past + (now - self.start_time) }
      else
        self
    Except.ok ({ self with state := PState.paused }, h)
  | PState.idle =>
    if self.state = PState.playing then
      let self := { self with time_past := self.time_past + (now - self.start_time) }
      if |self.time_past - self.time_left| < (2 : ℚ) then
        match self.async_media_next_track h with
        | Except.ok (self, h) => Except.ok ({ self with state := PState.idle }, h)
        | Except.error err => Except.error err
      else
        match self.async_stop h with
        | Except.ok (self, h) => Except.ok ({ self with state := PState.idle }, h)
        | Except.error err => Except.error err
    else if self.state = PState.paused then
      match self.async_stop h with
      | Except.ok (self, h) => Except.ok ({ self with state := PState.idle }, h)
      | Except.error err => Except.error err
    else
      Except.ok ({ self with state := PState.idle }, h)
  | PState.off =>
    match self.async_stop h with
    | Except.ok (self, h) => Except.ok ({ self with state := PState.off }, h)
    | Except.error err => Except.error err
  | PState.unknown _ =>
    self.async_stop h

/-- Reference-semantics write-back: the mutated `self` is the object the
registry aliases, so its entry (when it still exists) holds the mutated
value after the handler; when `async_stop` removed the entry there is
nothing to write. -/
def syncBack (h : HassState) (eid : String) (p : PlaylistPlayer) : HassState :=
  match regLookup h.registry eid with
  | some _ => { h with registry := regSet h.registry eid p }
  | none => h

/-- Body of the dispatcher's per-entity loop in `async_play_media`: look up
or create-and-register the entity's player, then run `async_play` on it. -/
def Dispatcher.play_one (h : HassState) (call : ServiceCall) (eid : String) :
    Except PyErr HassState :=
  match regLookup h.registry eid with
  | some p =>
    match p.async_play call h with
    | Except.ok (p', h') => Except.ok (syncBack h' eid p')
    | Except.error err => Except.error err
  | none =>
    let p := PlaylistPlayer.new eid
    let h := { h with registry := regSet h.registry eid p }
    match p.async_play call h with
    | Except.ok (p', h') => Except.ok (syncBack h' eid p')
    | Except.error err => Except.error err

/-- The dispatcher's `for entity_id in call.data.get(ATTR_ENTITY_ID)` loop. -/
def Dispatcher.play_all (call : ServiceCall) : HassState → List String → Except PyErr HassState
  | h, [] => Except.ok h
  | h, eid :: rest =>
    match Dispatcher.play_one h call eid with
    | Except.ok h' => Dispatcher.play_all call h' rest
    | Except.error err => Except.error err

/-- The registered `playlist_player.play_media` service handler
`async_play_media`: reject an empty entity-id list, otherwise play on each
listed entity in order. -/
def Dispatcher.async_play_media (h : HassState) (call : ServiceCall) : Except PyErr HassState :=
  if call.entity_id = [] then
    Except.error (PyErr.runtimeError "Empty entity_id not supported.")
  else
    Dispatcher.play_all call h call.entity_id

/-- The dispatcher's `EVENT_STATE_CHANGED` listener: forward the event to
the entity's player when one is registered, otherwise do nothing. -/
def Dispatcher.async_state_changed (h : HassState) (eid : String) (new_state : NewState)
    (now : ℚ) : Except PyErr HassState :=
  match regLookup h.registry eid with
  | none => Except.ok h
  | some p =>
    match p.async_state_changed new_state now h with
    | Except.ok (p', h') => Except.ok (syncBack h' eid p')
    | Except.error err => Except.error err

/-- A `Playing` notification carrying the given duration and position. -/
def playingState (d pos : ℚ) : NewState where
  state := PState.playing
  duration := some d
  position := some pos

/-- An `Idle` notification (no media attributes). -/
def idleState : NewState where
  state := PState.idle
  duration := none
  position := none

/-- An `Off` notification (no media attributes). -/
def offState : NewState where
  state := PState.off
  duration := none
  position := none

/-- One simulated track life-cycle for the test driver: a `Playing`
notification with `duration`/`position` at time `t_play`, then an `Idle`
notification at time `t_play + (duration - position) + eps`, so the
accumulated elapsed time misses the expected remaining time by `eps`. -/
structure TrackCycle where
  duration : ℚ
  position : ℚ
  t_play : ℚ
  eps : ℚ

/-- Test driver: feed the dispatcher one alternating Playing/Idle event
pair per `TrackCycle`, threading the hass state through. -/
def runAlternating (eid : String) : HassState → List TrackCycle → Except PyErr HassState
  | h, [] => Except.ok h
  | h, c :: cs =>
    match Dispatcher.async_state_changed h eid (playingState c.duration c.position) c.t_play with
    | Except.ok h1 =>
      match Dispatcher.async_state_changed h1 eid idleState
          (c.t_play + (c.duration - c.position) + c.eps) with
      | Except.ok h2 => runAlternating eid h2 cs
      | Except.error err => Except.error err
    | Except.error err => Except.error err

/-! ## Registry lemmas -/

lemma regLookup_regErase_self (r : List (String × PlaylistPlayer)) (e : String) :
    regLookup (regErase r e) e = none := by
  induction r with
  | nil => rfl
  | cons kv rest ih =>
    obtain ⟨k, v⟩ := kv
    by_cases hk : k = e <;> simp [regErase, regLookup, hk, ih]

lemma regLookup_regErase_ne (r : List (String × PlaylistPlayer)) (e e' : String)
    (hne : e' ≠ e) : regLookup (regErase r e) e' = regLookup r e' := by
  induction r with
  | nil => rfl
  | cons kv rest ih =>
    obtain ⟨k, v⟩ := kv
    by_cases hk : k = e
    · subst hk
      have hk' : ¬ k = e' := fun hh => hne hh.symm
      simp [regErase, regLookup, hk', ih]
    · by_cases hk' : k = e' <;> simp [regErase, regLookup, hk, hk', hne, ih]

lemma regLookup_regSet_self (r : List (String × PlaylistPlayer)) (e : String)
    (p : PlaylistPlayer) : regLookup (regSet r e p) e = some p := by
  simp [regSet, regLookup]

lemma regLookup_regSet_ne (r : List (String × PlaylistPlayer)) (e e' : String)
    (p : PlaylistPlayer) (hne : e' ≠ e) :
    regLookup (regSet r e p) e' = regLookup r e' := by
  have hk' : ¬ e = e' := fun hh => hne hh.symm
  simp [regSet, regLookup, hk', regLookup_regErase_ne r e e' hne]

/-! ## Comma-splitting lemmas -/

lemma splitCommaList_ne_nil (l : List Char) :
    ∃ i rest, splitCommaList l = i :: rest := by
  induction l with
  | nil => exact ⟨[], [], rfl⟩
  | cons c rest ih =>
    obtain ⟨i, r, hir⟩ := ih
    by_cases hc : c = ','
    · exact ⟨[], splitCommaList rest, by simp [splitCommaList, hc]⟩
    · exact ⟨c :: i, r, by simp [splitCommaList, hc, hir]⟩

lemma splitComma_ne_nil (s : String) : ∃ i rest, splitComma s = i :: rest := by
  obtain ⟨i, r, hir⟩ := splitCommaList_ne_nil s.data
  exact ⟨String.mk i, r.map (fun l => String.mk l), by simp [splitComma, hir]⟩

/-! ## Single-event step lemmas (singleton registry) -/

lemma playing_event_from_idle (e : String) (p : PlaylistPlayer) (d pos t : ℚ)
    (ds : List (Option String × String)) (hps : p.state = PState.idle) :
    Dispatcher.async_state_changed { registry := [(e, p)], dispatched := ds } e
        (playingState d pos) t
      = Except.ok
          { registry := [(e,
              { p with
                start_time := t
                time_left := d - pos
                time_past := 0
                state := PState.playing })]
            dispatched := ds } := by
  simp [Dispatcher.async_state_changed, PlaylistPlayer.async_state_changed, regLookup,
        playingState, syncBack, regSet, regErase, hps]

lemma idle_event_advance (e : String) (p : PlaylistPlayer) (t : ℚ)
    (ds : List (Option String × String)) (i : String) (rest : List String)
    (hps : p.state = PState.playing) (hpm : p.media_ids = i :: rest)
    (htol : |p.time_past + (t - p.start_time) - p.time_left| < 2) :
    Dispatcher.async_state_changed { registry := [(e, p)], dispatched := ds } e idleState t
      = Except.ok
          { registry := [(e,
              { p with
                time_past := p.time_past + (t - p.start_time)
                media_ids := rest
                data_content_id := i
                state := PState.idle })]
            dispatched := ds ++ [(p.data_entity_id, i)] } := by
  simp [Dispatcher.async_state_changed, PlaylistPlayer.async_state_changed, regLookup,
        idleState, syncBack, regSet, regErase, PlaylistPlayer.async_media_next_track,
        hps, hpm, htol]

lemma idle_event_last (e : String) (p : PlaylistPlayer) (t : ℚ)
    (ds : List (Option String × String))
    (hps : p.state = PState.playing) (hpm : p.media_ids = [])
    (hpe : p.entity_id = some e)
    (htol : |p.time_past + (t - p.start_time) - p.time_left| < 2) :
    Dispatcher.async_state_changed { registry := [(e, p)], dispatched := ds } e idleState t
      = Except.ok { registry := [], dispatched := ds } := by
  simp [Dispatcher.async_state_changed, PlaylistPlayer.async_state_changed, regLookup,
        idleState, syncBack, regSet, regErase, PlaylistPlayer.async_media_next_track,
        PlaylistPlayer.async_stop, hps, hpm, hpe, htol]

/-! ## The natural-playthrough loop -/

lemma runAlternating_natural (e : String) (rem : List String) :
    ∀ (cycles : List TrackCycle) (p : PlaylistPlayer) (ds : List (Option String × String)),
      cycles.length = rem.length + 1 →
      (∀ c ∈ cycles, |c.eps| < 2) →
      p.entity_id = some e → p.data_entity_id = some e →
      p.state = PState.idle → p.media_ids = rem →
      runAlternating e { registry := [(e, p)], dispatched := ds } cycles
        = Except.ok
            { registry := []
              dispatched := ds ++ rem.map (fun i => ((some e : Option String), i)) } := by
  induction rem with
  | nil =>
    intro cycles p ds hlen heps hpe hpd hps hpm
    match cycles, hlen with
    | [c], _ =>
      have hplay := playing_event_from_idle e p c.duration c.position c.t_play ds hps
      have harith : (0 : ℚ) + (c.t_play + (c.duration - c.position) + c.eps - c.t_play)
          - (c.duration - c.position) = c.eps := by ring
      have htol : |(0 : ℚ) + (c.t_play + (c.duration - c.position) + c.eps - c.t_play)
          - (c.duration - c.position)| < 2 := by
        rw [harith]; exact heps c (by simp)
      have hidle := idle_event_last e
        { p with
          start_time := c.t_play
          time_left := c.duration - c.position
          time_past := 0
          state := PState.playing }
        (c.t_play + (c.duration - c.position) + c.eps) ds rfl hpm hpe htol
      simp [runAlternating, hplay, hidle]
  | cons i rest ih =>
    intro cycles p ds hlen heps hpe hpd hps hpm
    match cycles with
    | c :: cs =>
      have hlen' : cs.length = rest.length + 1 := by simpa using hlen
      have hplay := playing_event_from_idle e p c.duration c.position c.t_play ds hps
      have harith : (0 : ℚ) + (c.t_play + (c.duration - c.position) + c.eps - c.t_play)
          - (c.duration - c.position) = c.eps := by ring
      have htol : |(0 : ℚ) + (c.t_play + (c.duration - c.position) + c.eps - c.t_play)
          - (c.duration - c.position)| < 2 := by
        rw [harith]; exact heps c (by simp)
      have hidle := idle_event_advance e
        { p with
          start_time := c.t_play
          time_left := c.duration - c.position
          time_past := 0
          state := PState.playing }
        (c.t_play + (c.duration - c.position) + c.eps) ds i rest rfl hpm htol
      have hrec := ih cs
        { p with
          start_time := c.t_play
          time_left := c.duration - c.position
          time_past := (0 : ℚ) + (c.t_play + (c.duration - c.position) + c.eps - c.t_play)
          media_ids := rest
          data_content_id := i
          state := PState.idle }
        (ds ++ [(p.data_entity_id, i)])
        hlen' (fun c' hc' => heps c' (by simp [hc'])) hpe hpd rfl rfl
      simp only [hpd] at hplay hidle hrec
      simp only [zero_add] at hrec
      simp [runAlternating, hplay, hidle, hrec]

/-! ## Shape of a successful stop -/

lemma async_stop_ok_shape (p p' : PlaylistPlayer) (h h' : HassState)
    (hstop : p.async_stop h = Except.ok (p', h')) :
    p' = { p with entity_id := none }
    ∧ ∃ e, p.entity_id = some e ∧ h' = { h with registry := regErase h.registry e } := by
  unfold PlaylistPlayer.async_stop at hstop
  cases hpe : p.entity_id with
  | none => rw [hpe] at hstop; exact absurd hstop (by simp)
  | some eid =>
    rw [hpe] at hstop
    cases hlook : regLookup h.registry eid with
    | none => simp only [hlook] at hstop; exact absurd hstop (by simp)
    | some q =>
      simp only [hlook, Except.ok.injEq, Prod.mk.injEq] at hstop
      exact ⟨hstop.1.symm, eid, rfl, hstop.2.symm⟩

/-! ## Concrete sample states used by witnesses and counterexamples -/

/-- A player mid-track on entity `"tv"`: expected remaining time 100,
nothing accumulated yet, one media id (`"b"`) still pending. -/
def tvPlaying : PlaylistPlayer where
  entity_id := some "tv"
  data_entity_id := some "tv"
  data_content_id := "a"
  media_ids := ["b"]
  state := PState.playing
  start_time := 0
  time_left := 100
  time_past := 0

/-- A paused player on entity `"tv"` with 30 seconds accumulated and 100
seconds of expected remaining time. -/
def tvPaused : PlaylistPlayer where
  entity_id := some "tv"
  data_entity_id := some "tv"
  data_content_id := "a"
  media_ids := ["b"]
  state := PState.paused
  start_time := 0
  time_left := 100
  time_past := 30

/-- A hass state whose registry holds `tvPlaying` under `"tv"`. -/
def tvHass : HassState where
  registry := [("tv", tvPlaying)]
  dispatched := []

/-- A hass state whose registry holds `tvPaused` under `"tv"`. -/
def tvHassPaused : HassState where
  registry := [("tv", tvPaused)]
  dispatched := []

/-! ## Claim C1 -/

/-- C1: for every media-id list (entering the system as a comma-separated
content string, whose split is always non-empty), a play request on one
entity followed by perfectly alternating Idle→Playing→Idle notifications
whose elapsed times match the expected durations within the 2-second
tolerance produces exactly one play-single-item dispatch per media id, in
the original order, and afterwards the entity's state object is removed
from the registry. -/
theorem c1_playlist_order_and_removal (e s : String) (cycles : List TrackCycle)
    (hlen : cycles.length = (splitComma s).length)
    (heps : ∀ c ∈ cycles, |c.eps| < 2) :
    (Dispatcher.async_play_media { registry := [], dispatched := [] }
        { entity_id := [e], media_content_id := s }).bind
      (fun h1 => runAlternating e h1 cycles)
      = Except.ok
          { registry := []
            dispatched := (splitComma s).map (fun i => ((some e : Option String), i)) } := by
  obtain ⟨i, rest, hsplit⟩ := splitComma_ne_nil s
  have hlen' : cycles.length = rest.length + 1 := by
    rw [hsplit] at hlen; simpa using hlen
  have hplay : Dispatcher.async_play_media { registry := [], dispatched := [] }
      { entity_id := [e], media_content_id := s }
      = Except.ok
          { registry := [(e,
              { entity_id := some e
                data_entity_id := some e
                data_content_id := i
                media_ids := rest
                state := PState.idle
                start_time := 0
                time_left := 0
                time_past := 0 })]
            dispatched := [((some e : Option String), i)] } := by
    simp [Dispatcher.async_play_media, Dispatcher.play_all, Dispatcher.play_one,
          PlaylistPlayer.async_play, PlaylistPlayer.async_media_next_track,
          PlaylistPlayer.new, regLookup, regSet, regErase, syncBack, hsplit]
  have hrun := runAlternating_natural e rest cycles
    { entity_id := some e
      data_entity_id := some e
      data_content_id := i
      media_ids := rest
      state := PState.idle
      start_time := 0
      time_left := 0
      time_past := 0 }
    [((some e : Option String), i)] hlen' heps rfl rfl rfl rfl
  rw [hplay]
  simp only [Except.bind]
  rw [hrun, hsplit]
  simp

/-- Witness for C1: entity `"tv"`, media list `"a,b"`, two natural
end-of-track cycles (off by 1/2 s and 0 s respectively). -/
theorem c1_playlist_order_and_removal_witness :
    (([⟨100, 0, 0, 1/2⟩, ⟨50, 0, 200, 0⟩] : List TrackCycle).length
        = (splitComma "a,b").length
      ∧ ∀ c ∈ ([⟨100, 0, 0, 1/2⟩, ⟨50, 0, 200, 0⟩] : List TrackCycle), |c.eps| < 2)
    ∧ (Dispatcher.async_play_media { registry := [], dispatched := [] }
        { entity_id := ["tv"], media_content_id := "a,b" }).bind
      (fun h1 => runAlternating "tv" h1 [⟨100, 0, 0, 1/2⟩, ⟨50, 0, 200, 0⟩])
      = Except.ok
          { registry := []
            dispatched := (splitComma "a,b").map (fun i => ((some "tv" : Option String), i)) } :=
  have heps : ∀ c ∈ ([⟨100, 0, 0, 1/2⟩, ⟨50, 0, 200, 0⟩] : List TrackCycle), |c.eps| < 2 := by
    intro c hc
    simp only [List.mem_cons, List.not_mem_nil, or_false] at hc
    rcases hc with rfl | rfl <;> (rw [abs_lt]; constructor <;> norm_num)
  ⟨⟨by decide, heps⟩,
    c1_playlist_order_and_removal "tv" "a,b" [⟨100, 0, 0, 1/2⟩, ⟨50, 0, 200, 0⟩]
      (by decide) heps⟩

/-! ## Claim C2 -/

/-- C2: on a Playing→Idle transition the handler first accumulates
`time_past += now - start_time`; then, if the accumulated time is within 2
seconds of the expected remaining time, it advances (dispatching the next
pending id); otherwise it stops, removing the entity's registry entry and
clearing `entity_id`. -/
theorem c2_playing_to_idle_classification (p : PlaylistPlayer) (now : ℚ) (h : HassState)
    (hp : p.state = PState.playing) :
    (∀ i rest, p.media_ids = i :: rest →
      |p.time_past + (now - p.start_time) - p.time_left| < 2 →
      p.async_state_changed idleState now h
        = Except.ok
            ({ p with
               time_past := p.time_past + (now - p.start_time)
               media_ids := rest
               data_content_id := i
               state := PState.idle },
             { h with dispatched := h.dispatched ++ [(p.data_entity_id, i)] }))
    ∧ ∀ e, p.entity_id = some e →
        ¬ |p.time_past + (now - p.start_time) - p.time_left| < 2 →
        (∃ q, regLookup h.registry e = some q) →
        p.async_state_changed idleState now h
          = Except.ok
              ({ p with
                 time_past := p.time_past + (now - p.start_time)
                 entity_id := none
                 state := PState.idle },
               { h with registry := regErase h.registry e }) := by
  constructor
  · intro i rest hpm htol
    simp [PlaylistPlayer.async_state_changed, idleState,
          PlaylistPlayer.async_media_next_track, hp, hpm, htol]
  · rintro e hpe htol ⟨q, hq⟩
    simp [PlaylistPlayer.async_state_changed, idleState,
          PlaylistPlayer.async_stop, hp, hpe, hq, htol]

/-- Witness for C2: `duration = 100, position = 0`; an Idle transition at
elapsed time 100.5 s advances (|100.5 − 100| = 0.5 < 2), while an Idle
transition at elapsed time 50 s stops and removes the registry entry. -/
theorem c2_playing_to_idle_classification_witness :
    tvPlaying.state = PState.playing
    ∧ tvPlaying.async_state_changed idleState (201/2) tvHass
        = Except.ok
            ({ tvPlaying with
               time_past := tvPlaying.time_past + (201/2 - tvPlaying.start_time)
               media_ids := []
               data_content_id := "b"
               state := PState.idle },
             { tvHass with dispatched := tvHass.dispatched ++ [(tvPlaying.data_entity_id, "b")] })
    ∧ tvPlaying.async_state_changed idleState 50 tvHass
        = Except.ok
            ({ tvPlaying with
               time_past := tvPlaying.time_past + (50 - tvPlaying.start_time)
               entity_id := none
               state := PState.idle },
             { tvHass with registry := regErase tvHass.registry "tv" }) :=
  ⟨rfl,
    (c2_playing_to_idle_classification tvPlaying (201/2) tvHass rfl).1 "b" [] rfl
      (by norm_num [tvPlaying, abs_lt]),
    (c2_playing_to_idle_classification tvPlaying 50 tvHass rfl).2 "tv" rfl
      (by norm_num [tvPlaying, abs_lt]) ⟨tvPlaying, rfl⟩⟩

/-! ## Claim C3 -/

/-- Counterexample to C3: a Paused→Playing transition whose new
`duration − position` (50) differs from the stored `time_left` (100)
re-derives the timing instead of resuming: `time_past` becomes 0 (was 30)
and `time_left` becomes 50 (was 100), so the transition does not leave
them unchanged for every duration/position. -/
theorem c3_counterexample :
    (tvPaused.async_state_changed (playingState 50 0) 40 tvHassPaused).map
        (fun r => (r.1.time_past, r.1.time_left))
      = Except.ok (0, 50)
    ∧ (tvPaused.time_past, tvPaused.time_left) = (30, 100)
    ∧ ((0 : ℚ), (50 : ℚ)) ≠ ((30 : ℚ), (100 : ℚ)) :=
  ⟨by norm_num [tvPaused, PlaylistPlayer.async_state_changed, playingState, Except.map],
   rfl, by norm_num⟩

/-- C3 (amended): on a Paused→Playing transition, `start_time := now` with
`time_past` and `time_left` preserved holds exactly when the new state's
`duration − position` equals the stored `time_left`; when it differs, the
timing is fully re-derived (`start_time := now`,
`time_left := duration − position`, `time_past := 0`). -/
theorem c3_amended_paused_to_playing (p : PlaylistPlayer) (d pos now : ℚ) (h : HassState)
    (hp : p.state = PState.paused) :
    (d - pos = p.time_left →
      p.async_state_changed (playingState d pos) now h
        = Except.ok ({ p with start_time := now, state := PState.playing }, h))
    ∧ (d - pos ≠ p.time_left →
      p.async_state_changed (playingState d pos) now h
        = Except.ok
            ({ p with
               start_time := now
               time_left := d - pos
               time_past := 0
               state := PState.playing }, h)) := by
  constructor
  · intro heq
    simp [PlaylistPlayer.async_state_changed, playingState, hp, heq]
  · intro hne
    simp [PlaylistPlayer.async_state_changed, playingState, hp, hne]

/-- Witness for the amended C3: with stored `time_left = 100` and
accumulated `time_past = 30`, a resume carrying duration 100 / position 0
keeps both, while one carrying duration 50 / position 0 zeroes
`time_past` and overwrites `time_left`. -/
theorem c3_amended_paused_to_playing_witness :
    tvPaused.state = PState.paused
    ∧ tvPaused.async_state_changed (playingState 100 0) 40 tvHassPaused
        = Except.ok ({ tvPaused with start_time := 40, state := PState.playing }, tvHassPaused)
    ∧ tvPaused.async_state_changed (playingState 50 0) 40 tvHassPaused
        = Except.ok
            ({ tvPaused with
               start_time := 40
               time_left := 50 - 0
               time_past := 0
               state := PState.playing }, tvHassPaused) :=
  ⟨rfl,
    (c3_amended_paused_to_playing tvPaused 100 0 40 tvHassPaused rfl).1
      (by norm_num [tvPaused]),
    (c3_amended_paused_to_playing tvPaused 50 0 40 tvHassPaused rfl).2
      (by norm_num [tvPaused])⟩

/-! ## Claim C4 -/

/-- A stale player left over from a previous playlist session: timing
fields 5 / 7 / 11, exhausted media list. -/
def tvStale : PlaylistPlayer where
  entity_id := some "tv"
  data_entity_id := some "tv"
  data_content_id := "a"
  media_ids := []
  state := PState.idle
  start_time := 5
  time_left := 7
  time_past := 11

/-- A hass state whose registry still holds `tvStale` under `"tv"`. -/
def tvStaleHass : HassState where
  registry := [("tv", tvStale)]
  dispatched := []

/-- Counterexample to C4: a play request for an entity that already has a
live state object reuses that object — afterwards the registry entry still
carries the previous session's `start_time`/`time_left`/`time_past`
(5, 7, 11) rather than the zeroed fields a fresh instance
(`PlaylistPlayer.new`) would have. -/
theorem c4_counterexample :
    (Dispatcher.async_play_media tvStaleHass
        { entity_id := ["tv"], media_content_id := "x" }).map
        (fun h' => (regLookup h'.registry "tv").map
          (fun p => (p.start_time, p.time_left, p.time_past)))
      = Except.ok (some (5, 7, 11))
    ∧ ((PlaylistPlayer.new "tv").start_time, (PlaylistPlayer.new "tv").time_left,
        (PlaylistPlayer.new "tv").time_past) = (0, 0, 0)
    ∧ ((5 : ℚ), (7 : ℚ), (11 : ℚ)) ≠ ((0 : ℚ), (0 : ℚ), (0 : ℚ)) :=
  ⟨rfl, rfl, by norm_num⟩

/-- C4 (amended): a subsequent play request for an entity with a live
state object reuses the existing instance: `play()` re-derives the pending
media list, the stored call data and `player_state`, but the timing
bookkeeping (`start_time`, `time_left`, `time_past`) keeps its values from
the previous session (they are only re-derived by a later Idle→Playing
transition). -/
theorem c4_amended_reuse (e s : String) (q : PlaylistPlayer) (h : HassState)
    (hq : regLookup h.registry e = some q) :
    ∃ i rest, splitComma s = i :: rest
      ∧ Dispatcher.async_play_media h { entity_id := [e], media_content_id := s }
          = Except.ok
              { registry := regSet h.registry e
                  { q with
                    data_entity_id := q.entity_id
                    data_content_id := i
                    media_ids := rest
                    state := PState.idle }
                dispatched := h.dispatched ++ [(q.entity_id, i)] }
      ∧ regLookup (regSet h.registry e
            { q with
              data_entity_id := q.entity_id
              data_content_id := i
              media_ids := rest
              state := PState.idle }) e
          = some { q with
              data_entity_id := q.entity_id
              data_content_id := i
              media_ids := rest
              state := PState.idle } := by
  obtain ⟨i, rest, hsplit⟩ := splitComma_ne_nil s
  refine ⟨i, rest, hsplit, ?_, regLookup_regSet_self ..⟩
  simp [Dispatcher.async_play_media, Dispatcher.play_all, Dispatcher.play_one,
        PlaylistPlayer.async_play, PlaylistPlayer.async_media_next_track,
        hq, hsplit, syncBack]

/-- Witness for the amended C4: replaying `"x"` on the entity holding
`tvStale` keeps the stale timing fields in the reused object. -/
theorem c4_amended_reuse_witness :
    regLookup tvStaleHass.registry "tv" = some tvStale
    ∧ ∃ i rest, splitComma "x" = i :: rest
      ∧ Dispatcher.async_play_media tvStaleHass
            { entity_id := ["tv"], media_content_id := "x" }
          = Except.ok
              { registry := regSet tvStaleHass.registry "tv"
                  { tvStale with
                    data_entity_id := tvStale.entity_id
                    data_content_id := i
                    media_ids := rest
                    state := PState.idle }
                dispatched := tvStaleHass.dispatched ++ [(tvStale.entity_id, i)] }
      ∧ regLookup (regSet tvStaleHass.registry "tv"
            { tvStale with
              data_entity_id := tvStale.entity_id
              data_content_id := i
              media_ids := rest
              state := PState.idle }) "tv"
          = some { tvStale with
              data_entity_id := tvStale.entity_id
              data_content_id := i
              media_ids := rest
              state := PState.idle } :=
  ⟨rfl, c4_amended_reuse "tv" "x" tvStale tvStaleHass rfl⟩

/-! ## Claim C5 -/

/-- C5: a play request whose entity-id list is empty fails fast with the
upfront validation error (`RuntimeError('Empty entity_id not supported.')`,
the spec's `InvalidRequestError`).  The error return carries no successor
state, matching the raise occurring before any per-entity processing: no
state object is created and the registry is untouched. -/
theorem c5_empty_entity_list (h : HassState) (call : ServiceCall)
    (he : call.entity_id = []) :
    Dispatcher.async_play_media h call
      = Except.error (PyErr.runtimeError "Empty entity_id not supported.") := by
  simp [Dispatcher.async_play_media, he]

/-- Witness for C5 at a concrete empty-entity-list request. -/
theorem c5_empty_entity_list_witness :
    ({ entity_id := [], media_content_id := "a" } : ServiceCall).entity_id = []
    ∧ Dispatcher.async_play_media { registry := [], dispatched := [] }
        { entity_id := [], media_content_id := "a" }
      = Except.error (PyErr.runtimeError "Empty entity_id not supported.") :=
  ⟨rfl, c5_empty_entity_list { registry := [], dispatched := [] }
    { entity_id := [], media_content_id := "a" } rfl⟩

/-! ## Claim C6 -/

/-- C6: a state-changed event for an entity with no registered state
object is a no-op: the handler returns the hass state unchanged (same
registry, same dispatch log) and raises nothing. -/
theorem c6_unregistered_entity_noop (h : HassState) (e : String) (ns : NewState) (now : ℚ)
    (hnone : regLookup h.registry e = none) :
    Dispatcher.async_state_changed h e ns now = Except.ok h := by
  simp [Dispatcher.async_state_changed, hnone]

/-- Witness for C6: an Idle event for unregistered `"bedroom"` leaves the
hass state untouched. -/
theorem c6_unregistered_entity_noop_witness :
    regLookup tvHass.registry "bedroom" = none
    ∧ Dispatcher.async_state_changed tvHass "bedroom" idleState 3 = Except.ok tvHass :=
  ⟨rfl, c6_unregistered_entity_noop tvHass "bedroom" idleState 3 rfl⟩

/-! ## Claim C7 -/

/-- Counterexample to C7: calling `stop()` on a state object whose
registry entry has already been removed raises `KeyError` — the first stop
cleared `entity_id`, so the second delete fails; `stop()` is not guarded
against double-removal. -/
theorem c7_counterexample :
    (tvPlaying.async_stop tvHass).bind (fun r => r.1.async_stop r.2)
      = Except.error PyErr.keyError := rfl

/-- C7 (amended): `stop()` is not guarded against double-removal: after
any successful stop (which clears `entity_id`), a second `stop()` on the
returned object raises `KeyError`, whatever the hass state. -/
theorem c7_amended_double_stop_raises (p p' : PlaylistPlayer) (h h' h2 : HassState)
    (hstop : p.async_stop h = Except.ok (p', h')) :
    p'.async_stop h2 = Except.error PyErr.keyError := by
  rw [(async_stop_ok_shape p p' h h' hstop).1]
  simp [PlaylistPlayer.async_stop]

/-- Witness for the amended C7: a concrete stop followed by a second stop
that raises. -/
theorem c7_amended_double_stop_raises_witness :
    tvPlaying.async_stop tvHass
        = Except.ok ({ tvPlaying with entity_id := none },
                     { tvHass with registry := regErase tvHass.registry "tv" })
    ∧ PlaylistPlayer.async_stop { tvPlaying with entity_id := none }
        { tvHass with registry := regErase tvHass.registry "tv" }
        = Except.error PyErr.keyError :=
  ⟨rfl, c7_amended_double_stop_raises tvPlaying { tvPlaying with entity_id := none }
    tvHass { tvHass with registry := regErase tvHass.registry "tv" }
    { tvHass with registry := regErase tvHass.registry "tv" } rfl⟩

/-! ## Claim C8 -/

/-- Counterexample to C8: a Playing→Off notification calls `stop()` (the
registry entry is removed and `entity_id` cleared) and then still writes
`player_state := Off` — on the Off row the state field is updated even
though `stop()` ran, contrary to the claim. -/
theorem c8_counterexample :
    (tvPlaying.async_state_changed offState 5 tvHass).map
        (fun r => (r.1.state, r.1.entity_id, r.2.registry))
      = Except.ok (PState.off, none, [])
    ∧ tvPlaying.state = PState.playing
    ∧ PState.off ≠ PState.playing :=
  ⟨rfl, rfl, by decide⟩

/-- C8 (amended): after every successfully processed notification the
`player_state` field of the (possibly discarded) state object is set to
the new state's kind — including the branches that called `stop()` (Off,
Playing→Idle stop, Paused→Idle, exhausted advance) — except the
unrecognized-kind row, which returns early without the final write and
leaves `player_state` unchanged. -/
theorem c8_amended_state_write (p : PlaylistPlayer) (ns : NewState) (now : ℚ) (h : HassState)
    (p' : PlaylistPlayer) (h' : HassState)
    (hok : p.async_state_changed ns now h = Except.ok (p', h')) :
    ((∀ s, ns.state ≠ PState.unknown s) → p'.state = ns.state)
    ∧ ∀ s, ns.state = PState.unknown s → p'.state = p.state := by
  unfold PlaylistPlayer.async_state_changed at hok
  cases hns : ns.state <;> rw [hns] at hok
  case playing =>
    refine ⟨fun _ => ?_, fun s hs => by simp at hs⟩
    simp only [Except.ok.injEq, Prod.mk.injEq] at hok
    rw [← hok.1]
  case paused =>
    refine ⟨fun _ => ?_, fun s hs => by simp at hs⟩
    simp only [Except.ok.injEq, Prod.mk.injEq] at hok
    rw [← hok.1]
  case idle =>
    refine ⟨fun _ => ?_, fun s hs => by simp at hs⟩
    by_cases hps : p.state = PState.playing
    · by_cases htol : |p.time_past + (now - p.start_time) - p.time_left| < 2
      · cases hnt : PlaylistPlayer.async_media_next_track
            { p with time_past := p.time_past + (now - p.start_time) } h with
        | error err =>
          simp only [hps] at hnt
          simp [hps, htol, hnt] at hok
        | ok r =>
          obtain ⟨pp, hh⟩ := r
          simp only [hps] at hnt
          simp [hps, htol, hnt, Prod.mk.injEq] at hok
          rw [← hok.1]
      · cases hstp : PlaylistPlayer.async_stop
            { p with time_past := p.time_past + (now - p.start_time) } h with
        | error err =>
          simp only [hps] at hstp
          simp [hps, htol, hstp] at hok
        | ok r =>
          obtain ⟨pp, hh⟩ := r
          simp only [hps] at hstp
          simp [hps, htol, hstp, Prod.mk.injEq] at hok
          rw [← hok.1]
    · by_cases hpp : p.state = PState.paused
      · cases hstp : p.async_stop h with
        | error err => simp [hps, hpp, hstp] at hok
        | ok r =>
          obtain ⟨pp, hh⟩ := r
          simp [hps, hpp, hstp, Prod.mk.injEq] at hok
          rw [← hok.1]
      · simp [hps, hpp, Prod.mk.injEq] at hok
        rw [← hok.1]
  case off =>
    refine ⟨fun _ => ?_, fun s hs => by simp at hs⟩
    cases hstp : p.async_stop h with
    | error err => rw [hstp] at hok; exact absurd hok (by simp)
    | ok r =>
      obtain ⟨pp, hh⟩ := r
      rw [hstp] at hok
      simp only [Except.ok.injEq, Prod.mk.injEq] at hok
      rw [← hok.1]
  case unknown s0 =>
    refine ⟨fun hne => absurd rfl (hne s0), fun s hs => ?_⟩
    rw [(async_stop_ok_shape p p' h h' hok).1]

/-- Witness for the amended C8: the concrete Playing→Off transition both
stops (registry entry removed, `entity_id` cleared) and writes the final
state `Off`. -/
theorem c8_amended_state_write_witness :
    tvPlaying.async_state_changed offState 5 tvHass
        = Except.ok ({ tvPlaying with entity_id := none, state := PState.off },
                     { tvHass with registry := regErase tvHass.registry "tv" })
    ∧ (((∀ s, offState.state ≠ PState.unknown s) →
          ({ tvPlaying with entity_id := none, state := PState.off } : PlaylistPlayer).state
            = offState.state)
        ∧ ∀ s, offState.state = PState.unknown s →
            ({ tvPlaying with entity_id := none, state := PState.off } : PlaylistPlayer).state
              = tvPlaying.state) :=
  ⟨rfl, c8_amended_state_write tvPlaying offState 5 tvHass
      { tvPlaying with entity_id := none, state := PState.off }
      { tvHass with registry := regErase tvHass.registry "tv" } rfl⟩

/-! ## Claim C9 -/

/-- C9: `play()` always dispatches: the comma-split of any content string
is non-empty (the empty string splits to `[""]`), so the `advance()` call
inside `play()` always takes the dispatch branch — exactly one
play-single-item command is fired, the registry is untouched, and the
`stop()` branch is unreachable directly from a play request. -/
theorem c9_play_always_dispatches (p : PlaylistPlayer) (call : ServiceCall) (h : HassState) :
    splitComma "" = [""]
    ∧ ∃ i rest, splitComma call.media_content_id = i :: rest
      ∧ p.async_play call h
        = Except.ok
            ({ p with
               data_entity_id := p.entity_id
               data_content_id := i
               media_ids := rest
               state := PState.idle },
             { h with dispatched := h.dispatched ++ [(p.entity_id, i)] }) := by
  obtain ⟨i, rest, hsplit⟩ := splitComma_ne_nil call.media_content_id
  exact ⟨rfl, i, rest, hsplit, by
    simp [PlaylistPlayer.async_play, PlaylistPlayer.async_media_next_track, hsplit]⟩

/-! ## Claim C10 -/

/-- C10: `stop()` on one entity's state machine removes exactly that
entity's registry entry: the stopped entity's lookup becomes `none`,
every other entity's lookup returns the identical state object as before
(hence all its fields are unchanged), and the dispatch log is untouched. -/
theorem c10_stop_removes_only_own_entry (p : PlaylistPlayer) (e : String) (h : HassState)
    (q : PlaylistPlayer) (hpe : p.entity_id = some e) (hq : regLookup h.registry e = some q) :
    p.async_stop h
      = Except.ok ({ p with entity_id := none },
                   { h with registry := regErase h.registry e })
    ∧ regLookup (regErase h.registry e) e = none
    ∧ ∀ e', e' ≠ e → regLookup (regErase h.registry e) e' = regLookup h.registry e' :=
  ⟨by simp [PlaylistPlayer.async_stop, hpe, hq],
   regLookup_regErase_self h.registry e,
   fun e' hne => regLookup_regErase_ne h.registry e e' hne⟩

/-- A second, unrelated entity used for the frame check. -/
def kitchenPlayer : PlaylistPlayer where
  entity_id := some "kitchen"
  data_entity_id := some "kitchen"
  data_content_id := "c"
  media_ids := ["d"]
  state := PState.playing
  start_time := 1
  time_left := 2
  time_past := 3

/-- A registry holding both `"tv"` and `"kitchen"`. -/
def twoHass : HassState where
  registry := [("tv", tvPlaying), ("kitchen", kitchenPlayer)]
  dispatched := []

/-- Witness for C10: stopping `"tv"` in the two-entity registry removes
only the `"tv"` entry; the `"kitchen"` entry still holds `kitchenPlayer`
unchanged. -/
theorem c10_stop_removes_only_own_entry_witness :
    (tvPlaying.async_stop twoHass
        = Except.ok ({ tvPlaying with entity_id := none },
                     { twoHass with registry := regErase twoHass.registry "tv" })
      ∧ regLookup (regErase twoHass.registry "tv") "tv" = none
      ∧ ∀ e', e' ≠ "tv" →
          regLookup (regErase twoHass.registry "tv") e' = regLookup twoHass.registry e')
    ∧ regLookup (regErase twoHass.registry "tv") "kitchen" = some kitchenPlayer :=
  ⟨c10_stop_removes_only_own_entry tvPlaying "tv" twoHass tvPlaying rfl rfl,
   ((c10_stop_removes_only_own_entry tvPlaying "tv" twoHass tvPlaying rfl rfl).2.2
      "kitchen" (by decide)).trans rfl⟩
